import Mathlib

/-!
# Verification of the component library's state-management core

Shallow embedding of the DataTable sort engine (`src/unnamed/part_007`,
component `DataTable`), the synced slider/number-input hook
(`src/unnamed/part_001`, `useSyncedSliderInput`), the panel collapse hook
(`src/src/hooks/usePanelCollapse.ts`) and the theme hook
(`src/src/hooks/useTheme.ts`).

Conventions of the embedding:
* JavaScript numbers are modelled as `Int`: every property verified here is
  order-theoretic (clamping, comparison signs, sort order) and uses no
  fractional or overflow behaviour.
* React `useState` cells become explicit state passed through pure transition
  functions; an optional callback invocation (`onChange?.(x)`,
  `onToggle?.(x)`) becomes an `Option` component of the result (`some x` =
  the callback, when supplied, is invoked with `x`; `none` = not invoked).
* `Array.prototype.sort`, which ECMAScript requires to be stable, is modelled
  by the stable `List.insertionSort` on the non-strict relation
  `cmp a b ≤ 0`; for a consistent comparator the stable sorted result is
  unique, so this is the observable behaviour of the source.
-/

/-- `SortDirection`'s non-null values (`'asc' | 'desc'`); the source's `null`
is modelled as `Option.none` around this type. -/
inductive SortDir where
  | asc
  | desc
deriving DecidableEq, Repr

/-- The two `useState` cells of `DataTable`: `sortColumn : string | null` and
`sortDirection : SortDirection` (i.e. `'asc' | 'desc' | null`). -/
structure SortState where
  sortColumn : Option String
  sortDirection : Option SortDir
deriving DecidableEq, Repr

/-- A cell value as produced by a column accessor, restricted to the cases the
sort engine distinguishes: a number (`typeof v === 'number'`), a string, or
`undefined`.  Other `ReactNode` shapes behave like strings under the engine's
default comparison and are not needed by any claim. -/
inductive CellValue where
  | num (n : Int)
  | str (s : String)
  | undef
deriving DecidableEq, Repr

/-- `String(v ?? '')` as applied by the default comparison: `undefined`
becomes the empty string, numbers their decimal rendering. -/
def jsDisplayString : CellValue → String
  | .num n => toString n
  | .str s => s
  | .undef => ""

/-- Model of `String.prototype.localeCompare` as a three-way lexicographic
comparison; only its sign is ever consumed by the engine. -/
def localeCompare (a b : String) : Int :=
  if a < b then -1 else if b < a then 1 else 0

/-- The default comparison branch of `sortedData`'s comparator: numeric
difference when both values are numbers, otherwise `localeCompare` on the
string projections (with the `?? ''` defaulting), negated for descending. -/
def defaultCompare (dir : SortDir) (aVal bVal : CellValue) : Int :=
  match aVal, bVal with
  | .num x, .num y => if dir = .asc then x - y else y - x
  | aVal, bVal =>
    let aStr := jsDisplayString aVal
    let bStr := jsDisplayString bVal
    if dir = .asc then localeCompare aStr bStr else localeCompare bStr aStr

/-- `ColumnDef<T>`, keeping the fields the sort engine reads (`id`,
`accessor`, `sortable`, `sortFn`); the presentation-only fields (`header`,
`width`, `align`, class names) do not influence sorting and are omitted. -/
structure ColumnDef (T : Type) where
  id : String
  accessor : T → CellValue
  sortable : Bool := false
  sortFn : Option (T → T → Int) := none

/-- The per-row comparator passed to `sort` by `sortedData`: a custom
`sortFn` (negated for descending) when the column defines one, else the
default comparison of the accessor values. -/
def rowCmp {T : Type} (column : ColumnDef T) (dir : SortDir) (a b : T) : Int :=
  match column.sortFn with
  | some f => if dir = .desc then -(f a b) else f a b
  | none => defaultCompare dir (column.accessor a) (column.accessor b)

/-- `[...data].sort(cmp)`: ECMAScript requires `Array.prototype.sort` to be
stable, and for a consistent comparator the stable result sorted by
`cmp · · ≤ 0` is unique; `List.insertionSort` on that relation is exactly
that stable sort. -/
def jsSort {T : Type} (cmp : T → T → Int) (l : List T) : List T :=
  List.insertionSort (fun a b => cmp a b ≤ 0) l

/-- The `handleSort` callback: both `setState` calls read the same pre-render
state, so the update is the pure transition
`(sortColumn, sortDirection) ↦ (sortColumn', sortDirection')`.  Cycle on the
active column: `asc → desc → null` (clearing the column together with the
direction on the last step); any other column becomes active ascending. -/
def handleSort (s : SortState) (columnId : String) : SortState :=
  if s.sortColumn = some columnId then
    { sortColumn := if s.sortDirection = some .desc then none else s.sortColumn
      sortDirection :=
        match s.sortDirection with
        | some .asc => some .desc
        | some .desc => none
        | none => some .asc }
  else
    { sortColumn := some columnId, sortDirection := some .asc }

/-- `sortedData`: the input rows verbatim when `sortColumn` or
`sortDirection` is falsy (`null`, or the empty-string column id) or the
active column is not found, else a stably sorted copy under `rowCmp`. -/
def sortedData {T : Type} (columns : List (ColumnDef T)) (data : List T)
    (s : SortState) : List T :=
  match s.sortColumn, s.sortDirection with
  | some colId, some dir =>
    if colId = "" then data
    else
      match columns.find? (fun c => c.id == colId) with
      | none => data
      | some column => jsSort (rowCmp column dir) data
  | _, _ => data

/-- Sort states reachable from the mount state `(null, null)` by
`handleSort` requests. -/
inductive ReachableSortState : SortState → Prop where
  | init : ReachableSortState ⟨none, none⟩
  | step {s : SortState} (columnId : String) :
      ReachableSortState s → ReachableSortState (handleSort s columnId)

/-- The configuration of `useSyncedSliderInput` (with the source's defaults);
`value` is the controlled value, `none` standing for `undefined`. -/
structure SyncedSliderConfig where
  initialValue : Int := 0
  min : Int := 0
  max : Int := 100
  step : Int := 1
  value : Option Int := none

/-- `isControlled = controlledValue !== undefined`. -/
def isControlled (cfg : SyncedSliderConfig) : Bool :=
  cfg.value.isSome

/-- The clamp helper: `Math.min(max, Math.max(min, val))`. -/
def clamp (cfg : SyncedSliderConfig) (val : Int) : Int :=
  min cfg.max (max cfg.min val)

/-- The `value` exposed by the hook: the controlled value if provided,
otherwise the internal state. -/
def sliderValue (cfg : SyncedSliderConfig) (internalValue : Int) : Int :=
  match cfg.value with
  | some v => v
  | none => internalValue

/-- `setValue`: clamp, store into internal state only when uncontrolled,
invoke `onChange` (when supplied) with the clamped value.  Result: the new
internal state and the notification payload. -/
def setValue (cfg : SyncedSliderConfig) (internalValue : Int)
    (newValue : Int) : Int × Option Int :=
  let clamped := clamp cfg newValue
  (if isControlled cfg then internalValue else clamped, some clamped)

/-- `handleNumberInputChange`: an `undefined` value (empty input) returns
without storing or notifying; otherwise it defers to `setValue`. -/
def handleNumberInputChange (cfg : SyncedSliderConfig) (internalValue : Int)
    (newValue : Option Int) : Int × Option Int :=
  match newValue with
  | none => (internalValue, none)
  | some v => setValue cfg internalValue v

/-- The configuration of `usePanelCollapse` (with the source's defaults);
`isExpanded` is the controlled value, `none` standing for `undefined`. -/
structure PanelCollapseConfig where
  defaultExpanded : Bool := true
  isExpanded : Option Bool := none

/-- `isControlled = isExpanded !== undefined`. -/
def panelIsControlled (cfg : PanelCollapseConfig) : Bool :=
  cfg.isExpanded.isSome

/-- The `expanded` value exposed by the hook: controlled value if provided,
otherwise the internal state (initialised from `defaultExpanded`). -/
def panelExpanded (cfg : PanelCollapseConfig) (internalExpanded : Bool) : Bool :=
  match cfg.isExpanded with
  | some e => e
  | none => internalExpanded

/-- `toggle`: negate the exposed value, store into internal state only when
uncontrolled, always invoke `onToggle` (when supplied) with the new logical
value.  Result: new internal state and the notification payload. -/
def panelToggle (cfg : PanelCollapseConfig) (internalExpanded : Bool) :
    Bool × Option Bool :=
  let nextValue := !(panelExpanded cfg internalExpanded)
  (if panelIsControlled cfg then internalExpanded else nextValue, some nextValue)

/-- In-memory state of `useTheme`.  `mode` is a raw string: the source casts
the stored string to `ThemeMode` without runtime validation.  `systemTheme`
is `'dark'` or `'light'` from the media query. -/
structure ThemeState where
  mode : String
  systemTheme : String
deriving DecidableEq, Repr

/-- `resolvedTheme = mode === 'system' ? systemTheme : mode`. -/
def resolvedTheme (st : ThemeState) : String :=
  if st.mode = "system" then st.systemTheme else st.mode

/-- `setMode`: updates the in-memory mode (the accompanying
`localStorage.setItem` persists the same string and is not separately
modelled). -/
def setMode (st : ThemeState) (newMode : String) : ThemeState :=
  { st with mode := newMode }

/-- `toggle`: the next mode is the opposite of the *resolved* theme. -/
def themeToggle (st : ThemeState) : ThemeState :=
  setMode st (if resolvedTheme st = "dark" then "light" else "dark")

/-- The fixed default accent (`DEFAULT_ACCENT`, cyan). -/
def DEFAULT_ACCENT : String := "186 100% 54%"

/-- Mode initialisation: `(localStorage.getItem(storageKey) as ThemeMode) ||
defaultMode`, where `getItem` yields `null` (here `none`) for an absent key
and `||` falls back exactly on the falsy strings, i.e. the empty string. -/
def initMode (defaultMode : String) (stored : Option String) : String :=
  match stored with
  | none => defaultMode
  | some s => if s = "" then defaultMode else s

/-- Accent initialisation: `localStorage.getItem('accent-color') ||
DEFAULT_ACCENT`. -/
def initAccentColor (stored : Option String) : String :=
  match stored with
  | none => DEFAULT_ACCENT
  | some s => if s = "" then DEFAULT_ACCENT else s

/-- Any single `handleSort` output already satisfies the coupling of the two
fields: a `null` direction comes with a `null` column. -/
theorem handleSort_direction_none_clears_column (s : SortState) (columnId : String) :
    (handleSort s columnId).sortDirection = none →
    (handleSort s columnId).sortColumn = none := by
  unfold handleSort
  by_cases h : s.sortColumn = some columnId
  · rcases hd : s.sortDirection with _ | dir
    · simp [h, hd]
    · cases dir <;> simp [h, hd]
  · simp [h]

/-- C1: from the mount state, three consecutive sort requests on the same
column return the sort state to no-sort and the displayed sequence to exactly
the input rows. -/
theorem three_sorts_restore_original {T : Type} (columns : List (ColumnDef T))
    (data : List T) (columnId : String) :
    handleSort (handleSort (handleSort ⟨none, none⟩ columnId) columnId) columnId
      = ⟨none, none⟩ ∧
    sortedData columns data
      (handleSort (handleSort (handleSort ⟨none, none⟩ columnId) columnId) columnId)
      = data := by
  have h3 : handleSort (handleSort (handleSort ⟨none, none⟩ columnId) columnId)
      columnId = ⟨none, none⟩ := by
    simp [handleSort]
  exact ⟨h3, by rw [h3]; rfl⟩

/-- C2: the sort-request transition is the tri-state cycle (inactive or other
column → ascending on the requested column; ascending → descending;
descending → both fields cleared together), and in every reachable sort state
a `null` direction implies the active column is cleared. -/
theorem handleSort_tristate_cycle (s : SortState) (columnId : String) :
    (s.sortColumn ≠ some columnId →
      handleSort s columnId = ⟨some columnId, some SortDir.asc⟩) ∧
    (s = ⟨some columnId, some SortDir.asc⟩ →
      handleSort s columnId = ⟨some columnId, some SortDir.desc⟩) ∧
    (s = ⟨some columnId, some SortDir.desc⟩ →
      handleSort s columnId = ⟨none, none⟩) ∧
    (ReachableSortState s → s.sortDirection = none → s.sortColumn = none) := by
  refine ⟨fun h => by simp [handleSort, h], fun h => by subst h; simp [handleSort],
    fun h => by subst h; simp [handleSort], fun hr => ?_⟩
  induction hr with
  | init => intro _; rfl
  | step c _ _ => exact handleSort_direction_none_clears_column _ c

theorem handleSort_tristate_cycle_witness :
    handleSort ⟨some "a", some SortDir.desc⟩ "a" = ⟨none, none⟩ ∧
    (⟨none, none⟩ : SortState).sortColumn = none :=
  ⟨(handleSort_tristate_cycle ⟨some "a", some SortDir.desc⟩ "a").2.2.1 rfl,
   (handleSort_tristate_cycle ⟨none, none⟩ "a").2.2.2 ReachableSortState.init rfl⟩

/-- C3: with `min < max`, `setValue` on an out-of-range value notifies with
exactly `min` (below) or `max` (above), never the raw value, and stores the
same clamped bound when uncontrolled. -/
theorem setValue_clamps_out_of_range (cfg : SyncedSliderConfig)
    (internalValue v : Int) (hrange : cfg.min < cfg.max)
    (hout : v < cfg.min ∨ cfg.max < v) :
    (setValue cfg internalValue v).2
      = some (if v < cfg.min then cfg.min else cfg.max) ∧
    (setValue cfg internalValue v).2 ≠ some v ∧
    (isControlled cfg = false →
      (setValue cfg internalValue v).1
          = (if v < cfg.min then cfg.min else cfg.max) ∧
      (setValue cfg internalValue v).1 ≠ v) := by
  have hclamp : clamp cfg v = if v < cfg.min then cfg.min else cfg.max := by
    rcases hout with h | h
    · rw [if_pos h]
      unfold clamp
      rw [max_eq_left h.le, min_eq_right hrange.le]
    · rw [if_neg (by omega)]
      unfold clamp
      rw [max_eq_right (by omega), min_eq_left h.le]
  have hne : clamp cfg v ≠ v := by
    rw [hclamp]; rcases hout with h | h
    · rw [if_pos h]; omega
    · rw [if_neg (by omega)]; omega
  refine ⟨?_, ?_, fun hc => ⟨?_, ?_⟩⟩
  · simpa [setValue] using hclamp
  · simpa [setValue] using hne
  · simpa [setValue, hc] using hclamp
  · simpa [setValue, hc] using hne

theorem setValue_clamps_out_of_range_witness :
    (setValue {} 0 150).2 = some 100 ∧ (setValue {} 0 150).2 ≠ some 150 ∧
    (setValue {} 0 150).1 = 100 := by
  have h := setValue_clamps_out_of_range {} 0 150 (by decide) (Or.inr (by decide))
  refine ⟨by simpa using h.1, by simpa using h.2.1, ?_⟩
  have h1 := (h.2.2 (by decide)).1
  simpa using h1

/-- C6: an `undefined` (empty-input) update through the number-input handler
leaves the internal state and the exposed shared value unchanged and sends no
change notification. -/
theorem numberInput_empty_update_is_noop (cfg : SyncedSliderConfig)
    (internalValue : Int) :
    handleNumberInputChange cfg internalValue none = (internalValue, none) ∧
    sliderValue cfg (handleNumberInputChange cfg internalValue none).1
      = sliderValue cfg internalValue :=
  ⟨rfl, rfl⟩

/-- C7: an uncontrolled panel starting collapsed is expanded after one
`toggle()`; a controlled panel with `isExpanded = true` still reports
`expanded = true` after `toggle()` while notifying with `false`. -/
theorem panelToggle_uncontrolled_and_controlled :
    (panelExpanded { defaultExpanded := false }
      (panelToggle { defaultExpanded := false }
        (PanelCollapseConfig.defaultExpanded { defaultExpanded := false })).1
      = true) ∧
    (panelExpanded { isExpanded := some true }
      (panelToggle { isExpanded := some true }
        (PanelCollapseConfig.defaultExpanded { isExpanded := some true })).1
      = true) ∧
    ((panelToggle { isExpanded := some true }
        (PanelCollapseConfig.defaultExpanded { isExpanded := some true })).2
      = some false) := by
  refine ⟨rfl, rfl, rfl⟩

/-- C8: theme `toggle()` always targets the opposite of the *resolved* theme;
in particular from `mode = system` under a dark system preference it sets
`mode = light`, and a second toggle then sets `mode = dark`. -/
theorem themeToggle_targets_resolved (st : ThemeState) :
    (themeToggle st).mode
      = (if resolvedTheme st = "dark" then "light" else "dark") ∧
    themeToggle { mode := "system", systemTheme := "dark" }
      = { mode := "light", systemTheme := "dark" } ∧
    themeToggle (themeToggle { mode := "system", systemTheme := "dark" })
      = { mode := "dark", systemTheme := "dark" } :=
  ⟨rfl, by decide, by decide⟩

/-- C10: at initialisation only an absent or empty stored string falls back
(to the default mode resp. the fixed cyan accent); any other stored string is
adopted verbatim without validation, and a non-`system` raw mode string
becomes the resolved theme as-is. -/
theorem theme_init_unvalidated (s sys : String) (hs : s ≠ "") :
    initMode "system" none = "system" ∧
    initMode "system" (some "") = "system" ∧
    initAccentColor none = "186 100% 54%" ∧
    initAccentColor (some "") = "186 100% 54%" ∧
    initMode "system" (some s) = s ∧
    initAccentColor (some s) = s ∧
    (s ≠ "system" →
      resolvedTheme { mode := initMode "system" (some s), systemTheme := sys }
        = s) := by
  refine ⟨rfl, rfl, rfl, rfl, by simp [initMode, hs],
    by simp [initAccentColor, DEFAULT_ACCENT, hs], fun hsys => ?_⟩
  simp [initMode, hs, resolvedTheme, hsys]

theorem theme_init_unvalidated_witness :
    initMode "system" (some "bogus") = "bogus" ∧
    resolvedTheme { mode := initMode "system" (some "bogus"), systemTheme := "dark" }
      = "bogus" := by
  have h := theme_init_unvalidated "bogus" "dark" (by decide)
  exact ⟨h.2.2.2.2.1, h.2.2.2.2.2.2 (by decide)⟩

/-- A row shape for the spec's concrete sorting scenarios. -/
structure Row where
  name : String
  v : Int
deriving DecidableEq, Repr

/-- A sortable numeric column projecting `Row.v`, using default comparison. -/
def vColumn : ColumnDef Row :=
  { id := "v", accessor := fun r => .num r.v, sortable := true }

/-- The spec's scenario rows `[{B,2},{A,1},{C,1}]`. -/
def scenarioRows : List Row := [⟨"B", 2⟩, ⟨"A", 1⟩, ⟨"C", 1⟩]

/-- C4: the sort is stable — any pair of rows the active comparator considers
equal keeps its input order in the sorted output — and the spec's scenario
rows sorted ascending on `v` come out `[{A,1},{C,1},{B,2}]`. -/
theorem sort_stable_ties_keep_order {T : Type} (column : ColumnDef T)
    (dir : SortDir) (data : List T) (a b : T)
    (hpair : List.Sublist [a, b] data) (heq : rowCmp column dir a b = 0) :
    List.Sublist [a, b] (jsSort (rowCmp column dir) data) ∧
    sortedData [vColumn] scenarioRows ⟨some "v", some SortDir.asc⟩
      = [⟨"A", 1⟩, ⟨"C", 1⟩, ⟨"B", 2⟩] := by
  refine ⟨?_, by decide⟩
  unfold jsSort
  exact List.pair_sublist_insertionSort (le_of_eq heq) hpair

theorem sort_stable_ties_keep_order_witness :
    List.Sublist [(⟨"A", 1⟩ : Row), ⟨"C", 1⟩]
      (jsSort (rowCmp vColumn SortDir.asc) scenarioRows) ∧
    sortedData [vColumn] scenarioRows ⟨some "v", some SortDir.asc⟩
      = [⟨"A", 1⟩, ⟨"C", 1⟩, ⟨"B", 2⟩] :=
  sort_stable_ties_keep_order vColumn SortDir.asc scenarioRows ⟨"A", 1⟩ ⟨"C", 1⟩
    (by decide) (by decide)

/-- Replacing an `undefined` cell by the empty string, as `String(v ?? '')`
does inside the default comparison. -/
def undefToEmptyString : CellValue → CellValue
  | .undef => .str ""
  | v => v

/-- The default comparison treats `undefined` exactly as the empty string. -/
theorem defaultCompare_undef_as_empty (dir : SortDir) (a b : CellValue) :
    defaultCompare dir a b
      = defaultCompare dir (undefToEmptyString a) (undefToEmptyString b) := by
  cases a <;> cases b <;> cases dir <;> rfl

/-- C9: under default comparison a row with an `undefined` projected value
sorts exactly as if the value were the empty string, and the sort is total —
it always returns a permutation of the input, never an error. -/
theorem undef_sorts_as_empty_string {T : Type} (column : ColumnDef T)
    (dir : SortDir) (data : List T) (hfn : column.sortFn = none) :
    jsSort (rowCmp column dir) data
      = jsSort (rowCmp { column with
          accessor := fun r => undefToEmptyString (column.accessor r) } dir) data ∧
    List.Perm (jsSort (rowCmp column dir) data) data := by
  have hcmp : rowCmp column dir = rowCmp { column with
      accessor := fun r => undefToEmptyString (column.accessor r) } dir := by
    funext a b
    simp only [rowCmp, hfn]
    exact defaultCompare_undef_as_empty dir _ _
  refine ⟨by rw [hcmp], ?_⟩
  unfold jsSort
  exact List.perm_insertionSort _ _

/-- A column over raw cell values with the identity accessor, for concrete
instances. -/
def idColumn : ColumnDef CellValue :=
  { id := "c", accessor := fun v => v, sortable := true }

theorem undef_sorts_as_empty_string_witness :
    jsSort (rowCmp idColumn SortDir.asc) [CellValue.undef, CellValue.str "a"]
      = jsSort (rowCmp { idColumn with
          accessor := fun r => undefToEmptyString (idColumn.accessor r) }
          SortDir.asc) [CellValue.undef, CellValue.str "a"] ∧
    List.Perm
      (jsSort (rowCmp idColumn SortDir.asc) [CellValue.undef, CellValue.str "a"])
      [CellValue.undef, CellValue.str "a"] :=
  undef_sorts_as_empty_string idColumn SortDir.asc
    [CellValue.undef, CellValue.str "a"] rfl

/-- On a numeric column with default comparison, the ascending comparator is
the value difference. -/
theorem rowCmp_numeric_asc {T : Type} (column : ColumnDef T) (v : T → Int)
    (hacc : column.accessor = fun r => CellValue.num (v r))
    (hfn : column.sortFn = none) :
    rowCmp column SortDir.asc = fun a b => v a - v b := by
  funext a b
  simp [rowCmp, hfn, hacc, defaultCompare]

/-- On a numeric column with default comparison, the descending comparator is
the reversed value difference. -/
theorem rowCmp_numeric_desc {T : Type} (column : ColumnDef T) (v : T → Int)
    (hacc : column.accessor = fun r => CellValue.num (v r))
    (hfn : column.sortFn = none) :
    rowCmp column SortDir.desc = fun a b => v b - v a := by
  funext a b
  simp [rowCmp, hfn, hacc, defaultCompare]

/-- At the level of the value sequences, the descending stable sort of
integers is the reverse of the ascending one. -/
theorem jsSort_int_desc_eq_reverse (m : List Int) :
    jsSort (fun a b => b - a) m = (jsSort (fun a b => a - b) m).reverse := by
  haveI : IsTotal Int (fun a b => b - a ≤ 0) :=
    ⟨fun a b => by show b - a ≤ 0 ∨ a - b ≤ 0; omega⟩
  haveI : IsTrans Int (fun a b => b - a ≤ 0) :=
    ⟨fun a b c h1 h2 => by
      have g1 : b - a ≤ 0 := h1
      have g2 : c - b ≤ 0 := h2
      show c - a ≤ 0; omega⟩
  haveI : IsTotal Int (fun a b => a - b ≤ 0) :=
    ⟨fun a b => by show a - b ≤ 0 ∨ b - a ≤ 0; omega⟩
  haveI : IsTrans Int (fun a b => a - b ≤ 0) :=
    ⟨fun a b c h1 h2 => by
      have g1 : a - b ≤ 0 := h1
      have g2 : b - c ≤ 0 := h2
      show a - c ≤ 0; omega⟩
  haveI : IsAntisymm Int (fun a b => b - a ≤ 0) :=
    ⟨fun a b h1 h2 => by
      have g1 : b - a ≤ 0 := h1
      have g2 : a - b ≤ 0 := h2
      omega⟩
  show (List.insertionSort (fun a b => b - a ≤ 0) m
    = (List.insertionSort (fun a b => a - b ≤ 0) m).reverse)
  have hsD := List.sorted_insertionSort (fun a b : Int => b - a ≤ 0) m
  have hsA := List.sorted_insertionSort (fun a b : Int => a - b ≤ 0) m
  have hrev : List.Sorted (fun a b : Int => b - a ≤ 0)
      (List.insertionSort (fun a b : Int => a - b ≤ 0) m).reverse := by
    rw [List.Sorted, List.pairwise_reverse]
    exact hsA
  have hp : List.Perm (List.insertionSort (fun a b : Int => b - a ≤ 0) m)
      ((List.insertionSort (fun a b : Int => a - b ≤ 0) m).reverse) :=
    (List.perm_insertionSort _ m).trans
      ((List.perm_insertionSort _ m).symm.trans (List.reverse_perm _).symm)
  exact List.eq_of_perm_of_sorted hp hsD hrev

/-- With pairwise-distinct projected values, the descending stable sort of
the rows themselves is the reverse of the ascending one. -/
theorem jsSort_desc_eq_reverse_of_nodup {T : Type} (v : T → Int) (l : List T)
    (hnd : (l.map v).Nodup) :
    jsSort (fun a b => v b - v a) l
      = (jsSort (fun a b => v a - v b) l).reverse := by
  haveI : IsTotal T (fun a b => v b - v a ≤ 0) :=
    ⟨fun a b => by show v b - v a ≤ 0 ∨ v a - v b ≤ 0; omega⟩
  haveI : IsTrans T (fun a b => v b - v a ≤ 0) :=
    ⟨fun a b c h1 h2 => by
      have g1 : v b - v a ≤ 0 := h1
      have g2 : v c - v b ≤ 0 := h2
      show v c - v a ≤ 0; omega⟩
  haveI : IsTotal T (fun a b => v a - v b ≤ 0) :=
    ⟨fun a b => by show v a - v b ≤ 0 ∨ v b - v a ≤ 0; omega⟩
  haveI : IsTrans T (fun a b => v a - v b ≤ 0) :=
    ⟨fun a b c h1 h2 => by
      have g1 : v a - v b ≤ 0 := h1
      have g2 : v b - v c ≤ 0 := h2
      show v a - v c ≤ 0; omega⟩
  haveI : IsAntisymm T (fun a b => v b < v a) :=
    ⟨fun a b h1 h2 => by
      have g1 : v b < v a := h1
      have g2 : v a < v b := h2
      exact absurd (g1.trans g2) (lt_irrefl _)⟩
  show (List.insertionSort (fun a b => v b - v a ≤ 0) l
    = (List.insertionSort (fun a b => v a - v b ≤ 0) l).reverse)
  have hsD := List.sorted_insertionSort (fun a b : T => v b - v a ≤ 0) l
  have hsA := List.sorted_insertionSort (fun a b : T => v a - v b ≤ 0) l
  have hpD := List.perm_insertionSort (fun a b : T => v b - v a ≤ 0) l
  have hpA := List.perm_insertionSort (fun a b : T => v a - v b ≤ 0) l
  have hndD : ((List.insertionSort (fun a b : T => v b - v a ≤ 0) l).map v).Nodup :=
    ((hpD.map v).nodup_iff).mpr hnd
  have hndA : ((List.insertionSort (fun a b : T => v a - v b ≤ 0) l).map v).Nodup :=
    ((hpA.map v).nodup_iff).mpr hnd
  have hneD : (List.insertionSort (fun a b : T => v b - v a ≤ 0) l).Pairwise
      (fun a b => v a ≠ v b) := List.pairwise_map.mp hndD
  have hneA : (List.insertionSort (fun a b : T => v a - v b ≤ 0) l).Pairwise
      (fun a b => v a ≠ v b) := List.pairwise_map.mp hndA
  have hstrictD : (List.insertionSort (fun a b : T => v b - v a ≤ 0) l).Pairwise
      (fun a b => v b < v a) :=
    List.Pairwise.imp₂ (fun a b h1 h2 => by
      have g1 : v b - v a ≤ 0 := h1
      have g2 : v a ≠ v b := h2
      show v b < v a; omega) hsD hneD
  have hstrictA : (List.insertionSort (fun a b : T => v a - v b ≤ 0) l).Pairwise
      (fun a b => v a < v b) :=
    List.Pairwise.imp₂ (fun a b h1 h2 => by
      have g1 : v a - v b ≤ 0 := h1
      have g2 : v a ≠ v b := h2
      show v a < v b; omega) hsA hneA
  have hrev : List.Sorted (fun a b : T => v b < v a)
      (List.insertionSort (fun a b : T => v a - v b ≤ 0) l).reverse := by
    rw [List.Sorted, List.pairwise_reverse]
    exact hstrictA
  have hp : List.Perm (List.insertionSort (fun a b : T => v b - v a ≤ 0) l)
      ((List.insertionSort (fun a b : T => v a - v b ≤ 0) l).reverse) :=
    hpD.trans (hpA.symm.trans (List.reverse_perm _).symm)
  exact List.eq_of_perm_of_sorted hp hstrictD hrev

/-- C5 (amended): on a numeric column under default comparison, the ascending
row order projects to exactly the raw values sorted ascending; the descending
*value sequence* is the exact reverse of the ascending one; and the
descending *row* order is the exact reverse of the ascending row order
whenever the projected values are pairwise distinct (with ties, both
directions keep the original tie order, so the row orders are not mutual
reverses in general). -/
theorem numeric_default_sort_orders {T : Type} (column : ColumnDef T)
    (v : T → Int) (l : List T)
    (hacc : column.accessor = fun r => CellValue.num (v r))
    (hfn : column.sortFn = none) :
    (jsSort (rowCmp column SortDir.asc) l).map v
        = jsSort (fun a b => a - b) (l.map v) ∧
    (jsSort (rowCmp column SortDir.desc) l).map v
        = ((jsSort (rowCmp column SortDir.asc) l).map v).reverse ∧
    ((l.map v).Nodup →
      jsSort (rowCmp column SortDir.desc) l
        = (jsSort (rowCmp column SortDir.asc) l).reverse) := by
  rw [rowCmp_numeric_asc column v hacc hfn, rowCmp_numeric_desc column v hacc hfn]
  have hA : (jsSort (fun a b => v a - v b) l).map v
      = jsSort (fun a b : Int => a - b) (l.map v) := by
    show ((List.insertionSort (fun a b => v a - v b ≤ 0) l).map v
      = List.insertionSort (fun a b : Int => a - b ≤ 0) (l.map v))
    exact List.map_insertionSort _ _ v l (fun a _ b _ => Iff.rfl)
  have hD : (jsSort (fun a b => v b - v a) l).map v
      = jsSort (fun a b : Int => b - a) (l.map v) := by
    show ((List.insertionSort (fun a b => v b - v a ≤ 0) l).map v
      = List.insertionSort (fun a b : Int => b - a ≤ 0) (l.map v))
    exact List.map_insertionSort _ _ v l (fun a _ b _ => Iff.rfl)
  refine ⟨hA, ?_, fun hnd => jsSort_desc_eq_reverse_of_nodup v l hnd⟩
  rw [hD, hA, jsSort_int_desc_eq_reverse]

/-- C5 as literally stated fails on ties: with two rows of equal value the
descending output keeps the input tie order (stability) and therefore is not
the reverse of the ascending output. -/
theorem numeric_desc_not_exact_reverse_counterexample :
    sortedData [vColumn] [(⟨"A", 1⟩ : Row), ⟨"C", 1⟩]
        ⟨some "v", some SortDir.desc⟩
      ≠ (sortedData [vColumn] [(⟨"A", 1⟩ : Row), ⟨"C", 1⟩]
        ⟨some "v", some SortDir.asc⟩).reverse := by
  decide

theorem numeric_default_sort_orders_witness :
    (jsSort (rowCmp vColumn SortDir.asc) [(⟨"A", 1⟩ : Row), ⟨"B", 2⟩]).map Row.v
        = jsSort (fun a b => a - b) ([(⟨"A", 1⟩ : Row), ⟨"B", 2⟩].map Row.v) ∧
    jsSort (rowCmp vColumn SortDir.desc) [(⟨"A", 1⟩ : Row), ⟨"B", 2⟩]
        = (jsSort (rowCmp vColumn SortDir.asc) [(⟨"A", 1⟩ : Row), ⟨"B", 2⟩]).reverse := by
  have h := numeric_default_sort_orders vColumn Row.v
    [(⟨"A", 1⟩ : Row), ⟨"B", 2⟩] rfl rfl
  exact ⟨h.1, h.2.2 (by decide)⟩
